import Mathlib

/-!
Shallow embedding of the benchmark procedures of `dataoob/evaluator/exper_methods.py`
and of the dataset registry of `dataoob/dataloader/datasets.py`.

Conventions of the embedding:
* `float` data values and metric scores are embedded as `ℚ`.
* The composite `clone` / `fit(Subset(x_train, idx), Subset(y_train, idx))` /
  `predict(x_split)` pipeline of a deterministic model is abstracted as a single
  function `fit_predict : List ℕ → Y` from the training-index subset to the
  predictions on the designated evaluation split; the caller-supplied metric is
  `evaluate : Y → Y → ℚ`.  The argument order of every `evaluate` call is
  transcribed literally from the source.
* `np.argsort` is embedded as a stable sort of the index list `[0, n)` by value
  (`kind="stable"` is requested at the one call site where ties matter).
* NaN / inf results of a numpy division by zero are embedded as `none : Option ℚ`.
-/

namespace DataOOB

/-- Python `range(start, stop, step)` for a positive `step`
(every call in the source has `step ≥ 1`). -/
def pyRange (start stop step : ℕ) : List ℕ :=
  (List.range ((stop - start + step - 1) / step)).map (fun i => start + step * i)

/-- Python 3 `round` on an exact rational: rounds to the nearest integer,
breaking halves to the even integer (round half to even). -/
def pyRound (q : ℚ) : ℤ :=
  if q - ⌊q⌋ < 1/2 then ⌊q⌋
  else if 1/2 < q - ⌊q⌋ then ⌊q⌋ + 1
  else if ⌊q⌋ % 2 = 0 then ⌊q⌋ else ⌊q⌋ + 1

/-- The bin period `num_period = max(round(num_points * percentile), 5)`
(exper_methods.py lines 103, 190, 293). -/
def num_period (num_points : ℕ) (percentile : ℚ) : ℕ :=
  (max (pyRound ((num_points : ℚ) * percentile)) 5).toNat

/-- The bin count `num_bins = int(num_points // num_period)`
(exper_methods.py lines 104, 191). -/
def num_bins (num_points : ℕ) (percentile : ℚ) : ℕ :=
  num_points / num_period num_points percentile

/-- Embedding of `np.argsort(data_values)`: the indices `[0, n)` stably sorted so
that the corresponding data values are ascending. -/
def argsort (data_values : List ℚ) : List ℕ :=
  List.insertionSort (fun i j => data_values.getD i 0 ≤ data_values.getD j 0)
    (List.range data_values.length)

/-- The `order` parameter of `point_removal`.  The source draws
`np.random.permutation(num_points)` for `"random"`; the embedding takes the drawn
permutation as the argument of the constructor. -/
inductive RemovalOrder
  | ascending
  | descending
  | random (perm : List ℕ)

/-- The `match order` block of `point_removal` (lines 106-112):
ascending `np.argsort(data_values)`, descending `np.argsort(-data_values)`,
random `np.random.permutation(num_points)`. -/
def sorted_value_list (order : RemovalOrder) (data_values : List ℚ) : List ℕ :=
  match order with
  | .ascending => argsort data_values
  | .descending => argsort (data_values.map (fun v => -v))
  | .random perm => perm

/-- Since `np.random.permutation(num_points)` always returns a permutation of
`[0, num_points)`, an embedded `random` order is valid when its argument is one. -/
def valid_order (order : RemovalOrder) (num_points : ℕ) : Prop :=
  match order with
  | .random perm => perm.Perm (List.range num_points)
  | _ => True

/-- Result mapping of `point_removal`: `f"{order}_add_{metric_name}"` and `"axis"`. -/
structure PointRemovalResult where
  metric_list : List ℚ
  x_axis : List ℚ

/-- Embedding of `point_removal` (exper_methods.py lines 59-142).  For each
`bin_index in range(0, num_points, num_period)` it fits a fresh clone on
`sorted_value_list[bin_index:]`, predicts on the validation split and appends
`evaluator.evaluate(y_valid, y_hat_valid)`;
`x_axis = [i * (1.0/num_bins) for i in range(num_bins)]`. -/
def point_removal {Y : Type} (data_values : List ℚ) (order : RemovalOrder)
    (percentile : ℚ) (y_valid : Y) (fit_predict : List ℕ → Y)
    (evaluate : Y → Y → ℚ) : PointRemovalResult :=
  let num_points := data_values.length
  let period := num_period num_points percentile
  let bins := num_bins num_points percentile
  let svl := sorted_value_list order data_values
  let metric_list := (pyRange 0 num_points period).map
    (fun bin_index => evaluate y_valid (fit_predict (svl.drop bin_index)))
  let x_axis := (List.range bins).map (fun i : ℕ => (i : ℚ) * (1 / (bins : ℚ)))
  ⟨metric_list, x_axis⟩

/-- Result mapping of `remove_high_low`: `f"remove_mostval_{metric_name}"`
(`valuable_list`), `f"remove_leastval_{metric_name}"` (`unvaluable_list`), `"axis"`. -/
structure RemoveHighLowResult where
  valuable_list : List ℚ
  unvaluable_list : List ℚ
  x_axis : List ℚ

/-- Embedding of `remove_high_low` (exper_methods.py lines 145-247).  For each
`bin_index in range(0, num_points, num_period)` it scores two fresh clones, one
fit on `sorted_value_list[bin_index:]` and one on
`sorted_value_list[:num_points - bin_index]`, both evaluated on the test split via
`evaluator.evaluate(y_test, y_hat)`. -/
def remove_high_low {Y : Type} (data_values : List ℚ) (percentile : ℚ)
    (y_test : Y) (fit_predict : List ℕ → Y) (evaluate : Y → Y → ℚ) :
    RemoveHighLowResult :=
  let num_points := data_values.length
  let period := num_period num_points percentile
  let bins := num_bins num_points percentile
  let svl := argsort data_values
  let valuable_list := (pyRange 0 num_points period).map
    (fun bin_index => evaluate y_test (fit_predict (svl.drop bin_index)))
  let unvaluable_list := (pyRange 0 num_points period).map
    (fun bin_index => evaluate y_test (fit_predict (svl.take (num_points - bin_index))))
  let x_axis := (List.range bins).map (fun a : ℕ => (a : ℚ) * (1 / (bins : ℚ)))
  ⟨valuable_list, unvaluable_list, x_axis⟩

/-- Result mapping of `discover_corrupted_sample`: `"corrupt_found"` and `"axis"`. -/
structure DiscoverResult where
  corrupt_found : List ℚ
  x_axis : List ℚ

/-- Embedding of `discover_corrupted_sample` (exper_methods.py lines 250-333).
`num_bins = int(num_points // num_period) + 1`; the value list is argsorted with
`kind="stable"`; for each `bin_index in range(0, num_points + num_period, num_period)`
it appends `len(np.intersect1d(sorted_value_list[:bin_index], noisy_indices)) /
len(noisy_indices)` (the prefix of a permutation has no duplicates, so the
intersection size is the count of prefix members lying in the noisy set). -/
def discover_corrupted_sample (data_values : List ℚ) (noisy_indices : Finset ℕ)
    (percentile : ℚ) : DiscoverResult :=
  let num_points := data_values.length
  let period := num_period num_points percentile
  let bins := num_points / period + 1
  let svl := argsort data_values
  let corrupt_found := (pyRange 0 (num_points + period) period).map
    (fun bin_index =>
      (((svl.take bin_index).countP (fun i => decide (i ∈ noisy_indices)) : ℚ))
        / (noisy_indices.card : ℚ))
  let x_axis := (List.range bins).map (fun a : ℕ => (a : ℚ) * (1 / (bins : ℚ)))
  ⟨corrupt_found, x_axis⟩

/-- Embedding of `np.max` of a nonempty list (numpy raises on an empty array; the embedding
returns `0` there, no claim evaluates it on an empty array). -/
def npMax (l : List ℚ) : ℚ :=
  match l with
  | [] => 0
  | x :: xs => xs.foldl max x

/-- A numpy float division: division by zero silently yields NaN or ±inf
(plus a RuntimeWarning), embedded as `none`. -/
def npDiv (a b : ℚ) : Option ℚ :=
  if b = 0 then none else some (a / b)

/-- The boundary list `bins_indices = [*range(5, num_points - 1, bin_size),
num_points - 1]` (exper_methods.py line 403). -/
def bins_indices (num_points bin_size : ℕ) : List ℕ :=
  pyRange 5 (num_points - 1) bin_size ++ [num_points - 1]

/-- Result mapping of `increasing_bin_removal`: `"frac_datapoints_explored"`,
`f"{metric_name}_at_datavalues"` (`perf`) and `"axis"`. -/
structure IncreasingBinResult where
  frac_datapoints_explored : List ℚ
  perf : List ℚ
  x_axis : List (Option ℚ)

/-- Embedding of `increasing_bin_removal` (exper_methods.py lines 344-444).
`frac_datapoints_explored = [(i+1)/num_points for i in bins_indices]`;
`x_axis = data_values[sorted_indices[bins_indices]] / np.max(data_values)`;
for each `bin_end in bins_indices` a fresh clone is fit on
`sorted_indices[:bin_end]` and line 422 appends
`evaluator.evaluate(y_hat, y_test)` — predictions first, transcribed literally. -/
def increasing_bin_removal {Y : Type} (data_values : List ℚ) (bin_size : ℕ)
    (y_test : Y) (fit_predict : List ℕ → Y) (evaluate : Y → Y → ℚ) :
    IncreasingBinResult :=
  let num_points := data_values.length
  let bins := bins_indices num_points bin_size
  let frac_datapoints_explored := bins.map (fun i : ℕ => ((i : ℚ) + 1) / (num_points : ℚ))
  let sorted_indices := argsort data_values
  let x_axis := bins.map (fun e =>
    npDiv (data_values.getD (sorted_indices.getD e 0) 0) (npMax data_values))
  let perf := bins.map (fun bin_end =>
    evaluate (fit_predict (sorted_indices.take bin_end)) y_test)
  ⟨frac_datapoints_explored, perf, x_axis⟩

/-- The registered fields of a `Register` object relevant to the registry claim
(datasets.py lines 105-129). -/
structure RegisterObj where
  dataset_name : String
  categorical : Bool
  cacheable : Bool
deriving DecidableEq

namespace Register

/-- Embedding of `Register.__init__` (datasets.py lines 105-129) acting on the class
registry `Register.Datasets`.  The duplicate check
`if dataset_name in Register.Datasets: raise KeyError(...)` runs before any field
assignment; `Register.Datasets[dataset_name] = self` is the last statement, so on
a duplicate the registry is returned untouched together with the raised error. -/
def init (registry : List (String × RegisterObj)) (dataset_name : String)
    (categorical cacheable : Bool) :
    Except String RegisterObj × List (String × RegisterObj) :=
  if dataset_name ∈ registry.map Prod.fst then
    (.error (dataset_name ++ " has been registered, names must be unique"), registry)
  else
    let obj : RegisterObj := ⟨dataset_name, categorical, cacheable⟩
    (.ok obj, registry ++ [(dataset_name, obj)])

end Register

end DataOOB

namespace DataOOB

/-! ### Helper lemmas about the embedded primitives -/

lemma length_pyRange (s t k : ℕ) : (pyRange s t k).length = (t - s + k - 1) / k := by
  simp [pyRange]

lemma getElem_pyRange {s t k i : ℕ} (h : i < (pyRange s t k).length) :
    (pyRange s t k)[i] = s + k * i := by
  simp [pyRange]

lemma argsort_perm (l : List ℚ) : (argsort l).Perm (List.range l.length) :=
  List.perm_insertionSort _ _

lemma length_argsort (l : List ℚ) : (argsort l).length = l.length := by
  simp [argsort, List.length_insertionSort]

lemma five_le_num_period (n : ℕ) (p : ℚ) : 5 ≤ num_period n p := by
  unfold num_period
  have h := le_max_right (pyRound ((n:ℚ) * p)) 5
  omega

lemma num_period_zero (n : ℕ) : num_period n 0 = 5 := by
  simp [num_period, pyRound]

lemma num_period_five_twentieth : num_period 5 (1/20) = 5 := by
  norm_num [num_period, pyRound]
  decide

lemma countP_take_le (l : List ℕ) (p : ℕ → Bool) {b c : ℕ} (h : b ≤ c) :
    (l.take b).countP p ≤ (l.take c).countP p := by
  have h1 : (l.take c).take b = l.take b := by
    rw [List.take_take]
    congr 1
    omega
  rw [← h1]
  exact (List.take_sublist _ _).countP_le p

lemma countP_range_eq_card (n : ℕ) (s : Finset ℕ) (h : ∀ i ∈ s, i < n) :
    (List.range n).countP (fun i => decide (i ∈ s)) = s.card := by
  classical
  have h1 : (List.range n).countP (fun i => decide (i ∈ s))
      = Multiset.countP (· ∈ s) (Multiset.range n) := by
    rw [← Multiset.coe_countP]
    rfl
  rw [h1, Multiset.countP_eq_card_filter]
  have h2 : Multiset.filter (· ∈ s) (Multiset.range n)
      = ((Finset.range n).filter (· ∈ s)).val := by
    rw [Finset.filter_val, Finset.range_val]
  rw [h2]
  have h3 : (Finset.range n).filter (· ∈ s) = Finset.range n ∩ s :=
    Finset.filter_mem_eq_inter
  rw [Finset.card_val, h3,
    Finset.inter_eq_right.mpr (fun i hi => Finset.mem_range.mpr (h i hi))]

lemma le_mul_div_add (a k : ℕ) (hk : 0 < k) : a ≤ k * ((a + k - 1) / k) := by
  rcases Nat.eq_zero_or_pos a with h0 | ha
  · simp [h0]
  · have h1 : a + k - 1 = (a - 1) + k := by omega
    rw [h1, Nat.add_div_right _ hk, Nat.mul_add, Nat.mul_one]
    have h2 := Nat.div_add_mod (a - 1) k
    have h3 : (a - 1) % k < k := Nat.mod_lt _ hk
    generalize hm : k * ((a - 1) / k) = m at h2 ⊢
    generalize hr : (a - 1) % k = r at h2 h3
    omega

lemma ceil_div_eq_of_dvd {n P : ℕ} (hP : 0 < P) (h : P ∣ n) : (n + P - 1) / P = n / P := by
  obtain ⟨k, rfl⟩ := h
  rw [Nat.mul_div_cancel_left _ hP]
  have h1 : P * k + P - 1 = P * k + (P - 1) := by omega
  rw [h1, Nat.mul_add_div hP, Nat.div_eq_of_lt (by omega)]
  omega

lemma mem_pyRange {s t k x : ℕ} (hk : 0 < k) (hx : x ∈ pyRange s t k) :
    s ≤ x ∧ x < t := by
  simp only [pyRange, List.mem_map, List.mem_range] at hx
  obtain ⟨i, hi, rfl⟩ := hx
  refine ⟨Nat.le_add_right _ _, ?_⟩
  have h4 : k * (i + 1) ≤ k * ((t - s + k - 1) / k) := Nat.mul_le_mul_left k hi
  have h5 : k * ((t - s + k - 1) / k) ≤ t - s + k - 1 := by
    rw [Nat.mul_comm]
    exact Nat.div_mul_le_self _ _
  have h6 : k * (i + 1) = k * i + k := by ring
  generalize hm : k * ((t - s + k - 1) / k) = m at h4 h5
  generalize hn : k * (i + 1) = a at h4 h6
  generalize hj : k * i = b at h6 ⊢
  omega

lemma head?_pyRange {s t k : ℕ} (h : 0 < (pyRange s t k).length) :
    (pyRange s t k).head? = some s := by
  rw [List.head?_eq_getElem?, List.getElem?_eq_getElem h, getElem_pyRange h]
  simp

/-! ### Claim theorems -/

/-- Claim C3: in `discover_corrupted_sample`, for every value array and every
nonempty noisy-index set contained in `[0, n)`, the `"corrupt_found"` series is
monotonically non-decreasing in the prefix length and its final entry equals
exactly `1`. -/
theorem discover_found_rate_monotone_and_total
    (data_values : List ℚ) (noisy_indices : Finset ℕ) (percentile : ℚ)
    (hsub : ∀ i ∈ noisy_indices, i < data_values.length)
    (hne : noisy_indices.Nonempty) :
    (∀ i j, i ≤ j →
      j < (discover_corrupted_sample data_values noisy_indices percentile).corrupt_found.length →
      (discover_corrupted_sample data_values noisy_indices percentile).corrupt_found.getD i 0 ≤
      (discover_corrupted_sample data_values noisy_indices percentile).corrupt_found.getD j 0) ∧
    (discover_corrupted_sample data_values noisy_indices percentile).corrupt_found.getLast?
      = some 1 := by
  set n := data_values.length with hn
  set P := num_period n percentile with hP
  have hP0 : 0 < P := lt_of_lt_of_le (by norm_num) (five_le_num_period n percentile)
  have hcard : (0 : ℚ) < (noisy_indices.card : ℚ) := by
    exact_mod_cast Finset.card_pos.mpr hne
  have hlen : (discover_corrupted_sample data_values noisy_indices percentile).corrupt_found.length
      = (pyRange 0 (n + P) P).length := by
    simp [discover_corrupted_sample]
  constructor
  · intro i j hij hj
    rw [hlen, length_pyRange] at hj
    have hi : i < (pyRange 0 (n + P) P).length := by
      rw [length_pyRange]; omega
    have hj' : j < (pyRange 0 (n + P) P).length := by
      rw [length_pyRange]; omega
    simp only [discover_corrupted_sample]
    rw [List.getD_eq_getElem _ _ (by simpa using hi), List.getD_eq_getElem _ _ (by simpa using hj')]
    simp only [List.getElem_map]
    rw [getElem_pyRange hi, getElem_pyRange hj']
    apply (div_le_div_iff_of_pos_right hcard).mpr
    simp only [Nat.zero_add]
    have := countP_take_le (argsort data_values)
      (fun i => decide (i ∈ noisy_indices)) (Nat.mul_le_mul_left P hij)
    exact_mod_cast this
  · simp only [discover_corrupted_sample]
    rw [List.getLast?_map]
    have hpos : 0 < (pyRange 0 (n + P) P).length := by
      rw [length_pyRange]
      have h1 : P ≤ n + P + P - 1 := by omega
      exact (Nat.one_le_div_iff hP0).mpr h1
    have hidx : (pyRange 0 (n + P) P).length - 1 < (pyRange 0 (n + P) P).length := by omega
    have hlastb : (pyRange 0 (n + P) P).getLast? = some (P * ((n + P - 1) / P)) := by
      rw [List.getLast?_eq_getElem?, List.getElem?_eq_getElem hidx, getElem_pyRange hidx]
      have h1 : n + P - 0 + P - 1 = (n + P - 1) + P := by omega
      rw [length_pyRange, h1, Nat.add_div_right _ hP0]
      simp
    rw [hlastb]
    simp only [Option.map_some']
    congr 1
    rw [List.take_of_length_le (by rw [length_argsort]; exact le_mul_div_add n P hP0),
      (argsort_perm data_values).countP_eq, countP_range_eq_card _ _ hsub,
      div_self (ne_of_gt hcard)]

/-- Witness for C3 at a concrete input. -/
theorem discover_found_rate_monotone_and_total_witness :
    (∀ i ∈ ({1} : Finset ℕ), i < ([0, 1, 2, 3, 4] : List ℚ).length) ∧
    ({1} : Finset ℕ).Nonempty ∧
    ((∀ i j, i ≤ j →
      j < (discover_corrupted_sample ([0, 1, 2, 3, 4] : List ℚ) {1} 0).corrupt_found.length →
      (discover_corrupted_sample ([0, 1, 2, 3, 4] : List ℚ) {1} 0).corrupt_found.getD i 0 ≤
      (discover_corrupted_sample ([0, 1, 2, 3, 4] : List ℚ) {1} 0).corrupt_found.getD j 0) ∧
    (discover_corrupted_sample ([0, 1, 2, 3, 4] : List ℚ) {1} 0).corrupt_found.getLast?
      = some 1) :=
  ⟨by decide, by decide,
    discover_found_rate_monotone_and_total ([0, 1, 2, 3, 4] : List ℚ) {1} 0
      (by decide) (by decide)⟩


/-- Claim C1 (amended): in `point_removal`, `remove_high_low` and
`discover_corrupted_sample`, every non-axis series has the same length as the
`"axis"` series whenever `num_period` divides the training-set size `n`
(with `n ≥ 1` and a nonempty noisy set, without which the Python code raises a
`ZeroDivisionError` in `discover_corrupted_sample`); when `num_period` does not
divide `n` the non-axis series are longer and callers must slice to
`[:num_bins]`. -/
theorem series_lengths_eq_axis_of_dvd {Y : Type}
    (data_values : List ℚ) (order : RemovalOrder) (percentile : ℚ)
    (y_valid y_test : Y) (fit_predict : List ℕ → Y) (evaluate : Y → Y → ℚ)
    (noisy_indices : Finset ℕ)
    (hdvd : num_period data_values.length percentile ∣ data_values.length)
    (hn : 0 < data_values.length) (hne : noisy_indices.Nonempty) :
    ((point_removal data_values order percentile y_valid fit_predict evaluate).metric_list.length
      = (point_removal data_values order percentile y_valid fit_predict evaluate).x_axis.length) ∧
    ((remove_high_low data_values percentile y_test fit_predict evaluate).valuable_list.length
      = (remove_high_low data_values percentile y_test fit_predict evaluate).x_axis.length) ∧
    ((remove_high_low data_values percentile y_test fit_predict evaluate).unvaluable_list.length
      = (remove_high_low data_values percentile y_test fit_predict evaluate).x_axis.length) ∧
    ((discover_corrupted_sample data_values noisy_indices percentile).corrupt_found.length
      = (discover_corrupted_sample data_values noisy_indices percentile).x_axis.length) := by
  have hP0 : 0 < num_period data_values.length percentile :=
    lt_of_lt_of_le (by norm_num) (five_le_num_period data_values.length percentile)
  have key : (data_values.length - 0 + num_period data_values.length percentile - 1)
        / num_period data_values.length percentile
      = data_values.length / num_period data_values.length percentile := by
    rw [Nat.sub_zero]
    exact ceil_div_eq_of_dvd hP0 hdvd
  have key2 : (data_values.length + num_period data_values.length percentile - 0
        + num_period data_values.length percentile - 1)
        / num_period data_values.length percentile
      = data_values.length / num_period data_values.length percentile + 1 := by
    have h1 : data_values.length + num_period data_values.length percentile - 0
          + num_period data_values.length percentile - 1
        = (data_values.length + num_period data_values.length percentile - 1)
          + num_period data_values.length percentile := by omega
    rw [h1, Nat.add_div_right _ hP0, ceil_div_eq_of_dvd hP0 hdvd]
  refine ⟨?_, ?_, ?_, ?_⟩ <;>
    simp only [point_removal, remove_high_low, discover_corrupted_sample,
      List.length_map, length_pyRange, List.length_range, num_bins]
  exacts [key, key, key, key2]

/-- Witness for C1 (amended) at a concrete input where `num_period = 5` divides
`n = 10`. -/
theorem series_lengths_eq_axis_of_dvd_witness :
    (num_period (List.replicate 10 (0:ℚ)).length 0 ∣ (List.replicate 10 (0:ℚ)).length) ∧
    (0 < (List.replicate 10 (0:ℚ)).length) ∧ ({0} : Finset ℕ).Nonempty ∧
    (((point_removal (List.replicate 10 (0:ℚ)) .ascending 0 ([] : List ℚ)
        (fun _ => []) (fun _ _ => 0)).metric_list.length
      = (point_removal (List.replicate 10 (0:ℚ)) .ascending 0 ([] : List ℚ)
        (fun _ => []) (fun _ _ => 0)).x_axis.length) ∧
    ((remove_high_low (List.replicate 10 (0:ℚ)) 0 ([] : List ℚ)
        (fun _ => []) (fun _ _ => 0)).valuable_list.length
      = (remove_high_low (List.replicate 10 (0:ℚ)) 0 ([] : List ℚ)
        (fun _ => []) (fun _ _ => 0)).x_axis.length) ∧
    ((remove_high_low (List.replicate 10 (0:ℚ)) 0 ([] : List ℚ)
        (fun _ => []) (fun _ _ => 0)).unvaluable_list.length
      = (remove_high_low (List.replicate 10 (0:ℚ)) 0 ([] : List ℚ)
        (fun _ => []) (fun _ _ => 0)).x_axis.length) ∧
    ((discover_corrupted_sample (List.replicate 10 (0:ℚ)) {0} 0).corrupt_found.length
      = (discover_corrupted_sample (List.replicate 10 (0:ℚ)) {0} 0).x_axis.length)) :=
  have hdvd : num_period (List.replicate 10 (0:ℚ)).length 0 ∣ (List.replicate 10 (0:ℚ)).length := by
    rw [List.length_replicate, num_period_zero]
    decide
  ⟨hdvd, by decide, by decide,
    series_lengths_eq_axis_of_dvd (List.replicate 10 (0:ℚ)) .ascending 0
      ([] : List ℚ) ([] : List ℚ) (fun _ => []) (fun _ _ => 0) {0}
      hdvd (by decide) (by decide)⟩

/-- Counterexample to C1 as stated: at `n = 7`, `percentile = 0` the metric
series of `point_removal` has 2 entries while `"axis"` has 1. -/
theorem series_length_mismatch_at_seven :
    (point_removal (List.replicate 7 (0:ℚ)) .ascending 0 ([] : List ℚ)
      (fun _ => []) (fun _ _ => 0)).metric_list.length ≠
    (point_removal (List.replicate 7 (0:ℚ)) .ascending 0 ([] : List ℚ)
      (fun _ => []) (fun _ _ => 0)).x_axis.length := by
  simp only [point_removal, List.length_map, length_pyRange, List.length_range,
    num_bins, List.length_replicate, num_period_zero]
  decide

/-- Claim C4: in `remove_high_low`, at the first bin boundary (`bin_index = 0`)
both fits use the full value-sorted index list, so the first entries of the
`remove_mostval` and `remove_leastval` series coincide for a deterministic
model and metric. -/
theorem remove_high_low_first_entries_eq {Y : Type}
    (data_values : List ℚ) (percentile : ℚ) (y_test : Y)
    (fit_predict : List ℕ → Y) (evaluate : Y → Y → ℚ)
    (hn : 0 < data_values.length) :
    (remove_high_low data_values percentile y_test fit_predict evaluate).valuable_list.head?
      = some (evaluate y_test (fit_predict (argsort data_values))) ∧
    (remove_high_low data_values percentile y_test fit_predict evaluate).unvaluable_list.head?
      = some (evaluate y_test (fit_predict (argsort data_values))) := by
  have hP0 : 0 < num_period data_values.length percentile :=
    lt_of_lt_of_le (by norm_num) (five_le_num_period data_values.length percentile)
  have hpos : 0 < (pyRange 0 data_values.length
      (num_period data_values.length percentile)).length := by
    rw [length_pyRange]
    refine (Nat.one_le_div_iff hP0).mpr ?_
    omega
  constructor <;>
    simp only [remove_high_low, List.head?_map, head?_pyRange hpos,
      Option.map_some', List.drop_zero, Nat.sub_zero,
      List.take_of_length_le (le_of_eq (length_argsort data_values))]

/-- Witness for C4 at a concrete input. -/
theorem remove_high_low_first_entries_eq_witness :
    (0 < ([0, 1, 2] : List ℚ).length) ∧
    ((remove_high_low ([0, 1, 2] : List ℚ) 0 ([] : List ℚ)
        (fun l => [(l.length : ℚ)]) (fun _ p => p.headD 0)).valuable_list.head?
      = some ((fun (_ p : List ℚ) => p.headD 0) []
          ((fun l : List ℕ => [(l.length : ℚ)]) (argsort ([0, 1, 2] : List ℚ)))) ∧
    (remove_high_low ([0, 1, 2] : List ℚ) 0 ([] : List ℚ)
        (fun l => [(l.length : ℚ)]) (fun _ p => p.headD 0)).unvaluable_list.head?
      = some ((fun (_ p : List ℚ) => p.headD 0) []
          ((fun l : List ℕ => [(l.length : ℚ)]) (argsort ([0, 1, 2] : List ℚ))))) :=
  ⟨by decide,
    remove_high_low_first_entries_eq ([0, 1, 2] : List ℚ) 0 ([] : List ℚ)
      (fun l => [(l.length : ℚ)]) (fun _ p => p.headD 0) (by decide)⟩

/-- Claim C5: `num_period = max(round(n * percentile), 5)` and
`num_bins = ⌊n / num_period⌋` for every `n` and `percentile`; at `n = 5`,
`percentile = 0.05` this gives `num_period = 5`, `num_bins = 1`, and
`point_removal` performs exactly one retrain-and-score step. -/
theorem num_period_num_bins_formula (n : ℕ) (percentile : ℚ) :
    ((num_period n percentile : ℤ) = max (pyRound ((n : ℚ) * percentile)) 5) ∧
    ((num_bins n percentile : ℤ)
      = ⌊(n : ℚ) / ((num_period n percentile : ℕ) : ℚ)⌋) ∧
    num_period 5 (1/20) = 5 ∧ num_bins 5 (1/20) = 1 ∧
    (point_removal ([0, 1, 2, 3, 4] : List ℚ) .ascending (1/20) ([] : List ℚ)
      (fun _ => ([] : List ℚ)) (fun _ _ => 0)).metric_list.length = 1 := by
  refine ⟨?_, ?_, num_period_five_twentieth, ?_, ?_⟩
  · unfold num_period
    have h := le_max_right (pyRound ((n : ℚ) * percentile)) 5
    omega
  · rw [Rat.floor_natCast_div_natCast n (num_period n percentile), num_bins]
    exact (Int.ofNat_div _ _).symm
  · unfold num_bins
    rw [num_period_five_twentieth]
  · simp only [point_removal, List.length_map, length_pyRange, List.length_cons,
      List.length_nil]
    rw [show (0+1+1+1+1+1 : ℕ) = 5 from rfl, num_period_five_twentieth]

/-- Claim C6: on the value array `[0.1, 0.5, 0.3, 0.9, 0.2]` the `point_removal`
ordering block yields `[0, 4, 2, 1, 3]` for `order="ascending"` and
`[3, 1, 2, 4, 0]` for `order="descending"`. -/
theorem point_removal_order_end_to_end :
    sorted_value_list .ascending
      [mkRat 1 10, mkRat 5 10, mkRat 3 10, mkRat 9 10, mkRat 2 10] = [0, 4, 2, 1, 3] ∧
    sorted_value_list .descending
      [mkRat 1 10, mkRat 5 10, mkRat 3 10, mkRat 9 10, mkRat 2 10] = [3, 1, 2, 4, 0] := by
  decide


/-- Claim C7: in `increasing_bin_removal` with `n > 6` and a positive `bin_size`
(a zero step would make the Python `range` call raise), the evaluated boundaries are
exactly `range(5, n-1, bin_size)` followed by `n-1`, every boundary `e`
satisfies `5 ≤ e < n`, the model of boundary `e` is fit on the value-sorted
prefix `[0:e]`, the `frac_datapoints_explored` entry is `(e+1)/n`, and the
`axis` entry is `value[sorted[e]] / max(value)`. -/
theorem increasing_bin_removal_boundaries {Y : Type}
    (data_values : List ℚ) (bin_size : ℕ) (y_test : Y)
    (fit_predict : List ℕ → Y) (evaluate : Y → Y → ℚ)
    (h6 : 6 < data_values.length) (hbs : 0 < bin_size) :
    bins_indices data_values.length bin_size
      = pyRange 5 (data_values.length - 1) bin_size ++ [data_values.length - 1] ∧
    (∀ e ∈ bins_indices data_values.length bin_size, 5 ≤ e ∧ e < data_values.length) ∧
    (increasing_bin_removal data_values bin_size y_test fit_predict evaluate).perf
      = (bins_indices data_values.length bin_size).map
          (fun e => evaluate (fit_predict ((argsort data_values).take e)) y_test) ∧
    (increasing_bin_removal data_values bin_size y_test fit_predict evaluate).frac_datapoints_explored
      = (bins_indices data_values.length bin_size).map
          (fun e : ℕ => ((e : ℚ) + 1) / (data_values.length : ℚ)) ∧
    (increasing_bin_removal data_values bin_size y_test fit_predict evaluate).x_axis
      = (bins_indices data_values.length bin_size).map
          (fun e => npDiv (data_values.getD ((argsort data_values).getD e 0) 0)
            (npMax data_values)) := by
  refine ⟨rfl, ?_, rfl, rfl, rfl⟩
  intro e he
  rw [bins_indices, List.mem_append] at he
  rcases he with he | he
  · obtain ⟨h5, hlt⟩ := mem_pyRange hbs he
    exact ⟨h5, by omega⟩
  · rw [List.mem_singleton] at he
    subst he
    omega

/-- Witness for C7 at a concrete input. -/
theorem increasing_bin_removal_boundaries_witness :
    (6 < ([0, 1, 2, 3, 4, 5, 6, 7] : List ℚ).length) ∧ (0 < 1) ∧
    (bins_indices ([0, 1, 2, 3, 4, 5, 6, 7] : List ℚ).length 1
      = pyRange 5 (([0, 1, 2, 3, 4, 5, 6, 7] : List ℚ).length - 1) 1
        ++ [([0, 1, 2, 3, 4, 5, 6, 7] : List ℚ).length - 1] ∧
    (∀ e ∈ bins_indices ([0, 1, 2, 3, 4, 5, 6, 7] : List ℚ).length 1,
      5 ≤ e ∧ e < ([0, 1, 2, 3, 4, 5, 6, 7] : List ℚ).length) ∧
    (increasing_bin_removal ([0, 1, 2, 3, 4, 5, 6, 7] : List ℚ) 1 ([] : List ℚ)
        (fun _ => []) (fun _ _ => 0)).perf
      = (bins_indices ([0, 1, 2, 3, 4, 5, 6, 7] : List ℚ).length 1).map
          (fun e => (fun (_ _ : List ℚ) => (0:ℚ))
            ((fun _ : List ℕ => ([] : List ℚ)) ((argsort ([0, 1, 2, 3, 4, 5, 6, 7] : List ℚ)).take e))
            ([] : List ℚ)) ∧
    (increasing_bin_removal ([0, 1, 2, 3, 4, 5, 6, 7] : List ℚ) 1 ([] : List ℚ)
        (fun _ => []) (fun _ _ => 0)).frac_datapoints_explored
      = (bins_indices ([0, 1, 2, 3, 4, 5, 6, 7] : List ℚ).length 1).map
          (fun e : ℕ => ((e : ℚ) + 1) / (([0, 1, 2, 3, 4, 5, 6, 7] : List ℚ).length : ℚ)) ∧
    (increasing_bin_removal ([0, 1, 2, 3, 4, 5, 6, 7] : List ℚ) 1 ([] : List ℚ)
        (fun _ => []) (fun _ _ => 0)).x_axis
      = (bins_indices ([0, 1, 2, 3, 4, 5, 6, 7] : List ℚ).length 1).map
          (fun e => npDiv (([0, 1, 2, 3, 4, 5, 6, 7] : List ℚ).getD
              ((argsort ([0, 1, 2, 3, 4, 5, 6, 7] : List ℚ)).getD e 0) 0)
            (npMax ([0, 1, 2, 3, 4, 5, 6, 7] : List ℚ)))) :=
  ⟨by decide, by decide,
    increasing_bin_removal_boundaries ([0, 1, 2, 3, 4, 5, 6, 7] : List ℚ) 1
      ([] : List ℚ) (fun _ => []) (fun _ _ => 0) (by decide) (by decide)⟩

/-- Claim C8 evaluated at the failing input: for the all-zero value array of
length 7 (`np.max(data_values) = 0`), `increasing_bin_removal` silently returns
an `"axis"` series consisting of NaNs (embedded as `none`), with no loud failure
and no special case. -/
theorem increasing_bin_removal_axis_nan_on_degenerate_values :
    (increasing_bin_removal (List.replicate 7 (0:ℚ)) 1 ([] : List ℚ)
      (fun _ => []) (fun _ _ => 0)).x_axis = [none, none] := by
  decide

/-- Claim C2 evaluated at the failing input: `increasing_bin_removal` (line 422)
calls `evaluate(y_hat, y_test)` with the predictions first.  With the metric
`fun a _ => a.headD 0` (head of its first argument), ground truth `[1]` and
constant predictions `[2]`, every recorded score is `2` — the head of the
predictions — whereas `evaluate(y_true, y_pred)` would record `1`. -/
theorem increasing_bin_removal_evaluate_args_swapped :
    (increasing_bin_removal ([0, 1, 2, 3, 4, 5, 6] : List ℚ) 1 ([1] : List ℚ)
      (fun _ => [2]) (fun a _ => a.headD 0)).perf = [2, 2] ∧
    (fun (a _ : List ℚ) => a.headD 0) ([1] : List ℚ) ([2] : List ℚ) = 1 := by
  decide

/-- Claim C9: constructing a `Register` whose name is already registered raises
a `KeyError` before any insertion and leaves the registry unchanged. -/
theorem register_duplicate_raises_and_preserves
    (registry : List (String × RegisterObj)) (dataset_name : String)
    (categorical cacheable : Bool)
    (h : dataset_name ∈ registry.map Prod.fst) :
    Register.init registry dataset_name categorical cacheable
      = (Except.error (dataset_name ++ " has been registered, names must be unique"),
        registry) := by
  simp [Register.init, h]

/-- Witness for C9 at a concrete registry. -/
theorem register_duplicate_raises_and_preserves_witness :
    ("iris" ∈ ([("iris", (⟨"iris", true, false⟩ : RegisterObj))].map Prod.fst)) ∧
    Register.init [("iris", (⟨"iris", true, false⟩ : RegisterObj))] "iris" true false
      = (Except.error ("iris" ++ " has been registered, names must be unique"),
        [("iris", (⟨"iris", true, false⟩ : RegisterObj))]) :=
  ⟨by decide,
    register_duplicate_raises_and_preserves
      [("iris", (⟨"iris", true, false⟩ : RegisterObj))] "iris" true false (by decide)⟩

lemma sorted_value_list_perm {order : RemovalOrder} {data_values : List ℚ}
    (h : valid_order order data_values.length) :
    (sorted_value_list order data_values).Perm (List.range data_values.length) := by
  cases order with
  | ascending => exact argsort_perm data_values
  | descending =>
    have h1 := argsort_perm (data_values.map (fun v => -v))
    rwa [List.length_map] at h1
  | random perm => exact h

/-- Claim C10: in `point_removal`, the index subset used at the first bin
boundary is the whole ordering, a permutation of `[0, n)`; hence for a
deterministic (sample-order-independent) model and metric, the first entry of
the metric series does not depend on the order policy. -/
theorem point_removal_first_bin_full_set {Y : Type}
    (data_values : List ℚ) (o1 o2 : RemovalOrder) (percentile : ℚ)
    (y_valid : Y) (fit_predict : List ℕ → Y) (evaluate : Y → Y → ℚ)
    (h1 : valid_order o1 data_values.length) (h2 : valid_order o2 data_values.length)
    (hfp : ∀ l l' : List ℕ, l.Perm l' → fit_predict l = fit_predict l')
    (hn : 0 < data_values.length) :
    (sorted_value_list o1 data_values).Perm (List.range data_values.length) ∧
    (point_removal data_values o1 percentile y_valid fit_predict evaluate).metric_list.head?
      = some (evaluate y_valid (fit_predict (sorted_value_list o1 data_values))) ∧
    (point_removal data_values o1 percentile y_valid fit_predict evaluate).metric_list.head?
      = (point_removal data_values o2 percentile y_valid fit_predict evaluate).metric_list.head? := by
  have hP0 : 0 < num_period data_values.length percentile :=
    lt_of_lt_of_le (by norm_num) (five_le_num_period data_values.length percentile)
  have hpos : 0 < (pyRange 0 data_values.length
      (num_period data_values.length percentile)).length := by
    rw [length_pyRange]
    refine (Nat.one_le_div_iff hP0).mpr ?_
    omega
  have hhead : ∀ o : RemovalOrder,
      (point_removal data_values o percentile y_valid fit_predict evaluate).metric_list.head?
        = some (evaluate y_valid (fit_predict (sorted_value_list o data_values))) := by
    intro o
    simp only [point_removal, List.head?_map, head?_pyRange hpos,
      Option.map_some', List.drop_zero]
  refine ⟨sorted_value_list_perm h1, hhead o1, ?_⟩
  rw [hhead o1, hhead o2,
    hfp _ _ ((sorted_value_list_perm h1).trans (sorted_value_list_perm h2).symm)]

/-- Witness for C10 at a concrete input: ascending order against an explicitly
drawn random permutation. -/
theorem point_removal_first_bin_full_set_witness :
    valid_order .ascending ([0, 1] : List ℚ).length ∧
    valid_order (.random [1, 0]) ([0, 1] : List ℚ).length ∧
    (0 < ([0, 1] : List ℚ).length) ∧
    ((sorted_value_list .ascending ([0, 1] : List ℚ)).Perm
        (List.range ([0, 1] : List ℚ).length) ∧
    (point_removal ([0, 1] : List ℚ) .ascending 0 ([] : List ℚ)
        (fun _ => []) (fun _ _ => 0)).metric_list.head?
      = some ((fun (_ _ : List ℚ) => (0:ℚ)) []
          ((fun _ : List ℕ => ([] : List ℚ)) (sorted_value_list .ascending ([0, 1] : List ℚ)))) ∧
    (point_removal ([0, 1] : List ℚ) .ascending 0 ([] : List ℚ)
        (fun _ => []) (fun _ _ => 0)).metric_list.head?
      = (point_removal ([0, 1] : List ℚ) (.random [1, 0]) 0 ([] : List ℚ)
        (fun _ => []) (fun _ _ => 0)).metric_list.head?) :=
  ⟨trivial, (by decide : ([1, 0] : List ℕ).Perm (List.range ([0, 1] : List ℚ).length)),
    by decide,
    point_removal_first_bin_full_set ([0, 1] : List ℚ) .ascending (.random [1, 0]) 0
      ([] : List ℚ) (fun _ => []) (fun _ _ => 0)
      trivial ((by decide : ([1, 0] : List ℕ).Perm (List.range ([0, 1] : List ℚ).length)))
      (fun _ _ _ => rfl) (by decide)⟩

end DataOOB
